import Mathlib

/-!
# Verification of the table sort/filter controller (src/sort.js)

This file gives a shallow embedding of the single source file of the
repository, `src/sort.js`: a DOM table controller with

* `sortTable (colIndex, header)` — sorts the body rows by the clicked
  column, toggling between ascending and descending, and maintains the
  `sorted-asc` / `sorted-desc` marker classes on the headers;
* a filter-checkbox change handler — hides every row not carrying the
  `error` class when the checkbox is checked, and unhides all rows when
  it is unchecked.

The embedding models the DOM state as a `TableState` (a list of headers,
each carrying the two sort-marker booleans, and a list of rows, each an
ordered list of cell texts plus the `error` and `hidden` markers and an
identity tag).  The JavaScript value semantics relevant to the
comparator — `isNaN` (i.e. string-to-number conversion), `parseFloat`,
`toLowerCase`, and the relational operators `<` / `>` on mixed
number/string operands — are modelled exactly, with JavaScript numbers
represented as `JSNum` (an exact decimal value `m * 10 ^ e`, NaN, or a
signed infinity; IEEE-754 rounding is idealised away, which is faithful
for every input considered here).  `Array.prototype.sort` is modelled as a stable sort
(`List.insertionSort`), as guaranteed by ECMAScript 2019 and later.
-/

namespace EnbyTable

/-! ## JavaScript numbers -/

/-- A JavaScript number as produced by string-to-number conversion:
NaN, a signed infinity (`neg = true` for `-Infinity`), or a finite value.
A finite value is kept exactly as `m * 10 ^ e` (every numeric string
denotes such a value); IEEE-754 rounding is idealised away, which is
faithful for every input considered here. -/
inductive JSNum where
  | nan : JSNum
  | inf : Bool → JSNum
  | fin : ℤ → ℤ → JSNum
deriving DecidableEq, Repr

/-- `10 ^ n` as an integer. -/
def tenPow : ℕ → ℤ
  | 0 => 1
  | n + 1 => 10 * tenPow n

/-- `m1 * 10 ^ e1 < m2 * 10 ^ e2`, by cross-scaling to the smaller
exponent. -/
def decLt (m1 e1 m2 e2 : ℤ) : Bool :=
  if e1 ≤ e2 then decide (m1 < m2 * tenPow (e2 - e1).toNat)
  else decide (m1 * tenPow (e1 - e2).toNat < m2)

/-- The JavaScript `<` relation on numbers: any comparison involving NaN
is false; `-Infinity` is below and `Infinity` above every finite value. -/
def JSNum.lt : JSNum → JSNum → Bool
  | .nan, _ => false
  | _, .nan => false
  | .fin m1 e1, .fin m2 e2 => decLt m1 e1 m2 e2
  | .inf n, .fin _ _ => n
  | .fin _ _, .inf n => !n
  | .inf a, .inf b => a && !b

/-! ## String-to-number conversion (ECMAScript `ToNumber` and `parseFloat`) -/

def isDigitChar (c : Char) : Bool := '0' ≤ c && c ≤ '9'

def digitVal (c : Char) : ℕ := c.toNat - '0'.toNat

/-- Value of a big-endian digit list in a given radix. -/
def radixVal (radix : ℕ) (f : Char → ℕ) (ds : List Char) : ℕ :=
  ds.foldl (fun n c => radix * n + f c) 0

def digitsVal (ds : List Char) : ℕ := radixVal 10 digitVal ds

/-- The JavaScript white-space set removed by `String.prototype.trim`:
the ECMAScript WhiteSpace and LineTerminator code points. -/
def isJsWhitespace (c : Char) : Bool :=
  c = ' ' || c = '\t' || c = '\n' || c = '\r' ||
  c = '\u000B' || c = '\u000C' || c = '\u00A0' || c = '\uFEFF' ||
  c = '\u1680' || ('\u2000' ≤ c && c ≤ '\u200A') ||
  c = '\u2028' || c = '\u2029' || c = '\u202F' || c = '\u205F' || c = '\u3000'

/-- Remove leading and trailing JavaScript white space from a character
list. -/
def jsTrimList (cs : List Char) : List Char :=
  ((cs.dropWhile isJsWhitespace).reverse.dropWhile isJsWhitespace).reverse

/-- JavaScript `String.prototype.trim`. -/
def jsTrim (s : String) : String := ⟨jsTrimList s.data⟩

/-- JavaScript `String.prototype.toLowerCase` (ASCII range; no cell text
considered here contains letters outside it). -/
def jsToLower (s : String) : String := ⟨s.data.map Char.toLower⟩

/-- The longest run of decimal digits at the head of the list, and the rest. -/
def splitDigits (cs : List Char) : List Char × List Char :=
  (cs.takeWhile isDigitChar, cs.dropWhile isDigitChar)

/-- Parse an exponent part `e`/`E` followed by an optional sign and at least
one digit; `none` when the input does not start with a valid exponent part. -/
def parseExpAux (cs : List Char) : Option (ℤ × List Char) :=
  match cs with
  | c :: rest =>
    if c = 'e' || c = 'E' then
      match rest with
      | '+' :: r2 =>
        let (ds, r3) := splitDigits r2
        if ds.isEmpty then none else some ((digitsVal ds : ℤ), r3)
      | '-' :: r2 =>
        let (ds, r3) := splitDigits r2
        if ds.isEmpty then none else some (-(digitsVal ds : ℤ), r3)
      | _ =>
        let (ds, r2) := splitDigits rest
        if ds.isEmpty then none else some ((digitsVal ds : ℤ), r2)
    else none
  | [] => none

/-- Consume an exponent part when one is present, else exponent `0`. -/
def parseExpOpt (cs : List Char) : ℤ × List Char :=
  match parseExpAux cs with
  | some (e, r) => (e, r)
  | none => (0, cs)

/-- Parse the longest unsigned decimal literal (ECMAScript
`StrUnsignedDecimalLiteral` without the `Infinity` production) at the head
of the list: `digits [. digits] [exp]` or `. digits [exp]`. -/
def parseUnsignedDec (cs : List Char) : Option ((ℤ × ℤ) × List Char) :=
  let (intDs, r1) := splitDigits cs
  match r1 with
  | '.' :: r2 =>
    let (fracDs, r3) := splitDigits r2
    if intDs.isEmpty && fracDs.isEmpty then none
    else
      let (e, r4) := parseExpOpt r3
      some (((digitsVal (intDs ++ fracDs) : ℤ), e - fracDs.length), r4)
  | _ =>
    if intDs.isEmpty then none
    else
      let (e, r2) := parseExpOpt r1
      some (((digitsVal intDs : ℤ), e), r2)

/-- Parse a decimal literal after an optional sign has been consumed:
either the literal word `Infinity` or an unsigned decimal literal. -/
def parseAfterSign (neg : Bool) (cs : List Char) : Option (JSNum × List Char) :=
  if ("Infinity".toList).isPrefixOf cs then
    some (JSNum.inf neg, cs.drop 8)
  else
    match parseUnsignedDec cs with
    | some ((m, e), r) => some (JSNum.fin (if neg then -m else m) e, r)
    | none => none

/-- Parse the longest signed decimal literal (ECMAScript
`StrDecimalLiteral`) at the head of the list. -/
def parseSignedPrefix (cs : List Char) : Option (JSNum × List Char) :=
  match cs with
  | '+' :: rest => parseAfterSign false rest
  | '-' :: rest => parseAfterSign true rest
  | _ => parseAfterSign false cs

/-- JavaScript `parseFloat`: trim, then parse the longest prefix that is a
signed decimal literal; NaN when no prefix parses (in particular on `""`,
and hex literals like `"0x10"` only parse their leading `0`). -/
def jsParseFloat (s : String) : JSNum :=
  match parseSignedPrefix (jsTrimList s.data) with
  | some (v, _) => v
  | none => JSNum.nan

def isHexDigitChar (c : Char) : Bool :=
  isDigitChar c || ('a' ≤ c && c ≤ 'f') || ('A' ≤ c && c ≤ 'F')

def hexDigitVal (c : Char) : ℕ :=
  if isDigitChar c then digitVal c
  else if 'a' ≤ c && c ≤ 'f' then c.toNat - 'a'.toNat + 10
  else c.toNat - 'A'.toNat + 10

def isOctDigitChar (c : Char) : Bool := '0' ≤ c && c ≤ '7'

def isBinDigitChar (c : Char) : Bool := c = '0' || c = '1'

/-- An ECMAScript `NonDecimalIntegerLiteral`: `0x`/`0X`, `0o`/`0O` or
`0b`/`0B` followed by at least one digit of the radix (no sign allowed). -/
def parseNonDecimal : List Char → Option ℤ
  | '0' :: x :: ds =>
    if (x = 'x' || x = 'X') && !ds.isEmpty && ds.all isHexDigitChar then
      some (radixVal 16 hexDigitVal ds)
    else if (x = 'o' || x = 'O') && !ds.isEmpty && ds.all isOctDigitChar then
      some (radixVal 8 digitVal ds)
    else if (x = 'b' || x = 'B') && !ds.isEmpty && ds.all isBinDigitChar then
      some (radixVal 2 digitVal ds)
    else none
  | _ => none

/-- ECMAScript `ToNumber` on a string: the whole trimmed string must be a
numeric literal; the empty string converts to `0`; otherwise NaN. -/
def jsToNumber (s : String) : JSNum :=
  let cs := jsTrimList s.data
  if cs.isEmpty then JSNum.fin 0 0
  else
    match parseNonDecimal cs with
    | some m => JSNum.fin m 0
    | none =>
      match parseSignedPrefix cs with
      | some (v, []) => v
      | _ => JSNum.nan

/-- JavaScript global `isNaN(s)` for a string argument: converts with
`ToNumber` and tests for NaN. -/
def jsIsNaN (s : String) : Bool :=
  match jsToNumber s with
  | JSNum.nan => true
  | _ => false

/-! ## JavaScript values and relational operators -/

/-- A JavaScript primitive as it occurs in the comparator: either a number
(the `parseFloat` branch) or a string (the `toLowerCase` branch). -/
inductive JSVal where
  | num : JSNum → JSVal
  | str : String → JSVal
deriving DecidableEq, Repr

/-- `ToNumber` on a primitive, as applied by a relational operator to a
mixed number/string pair. -/
def JSVal.toNumber : JSVal → JSNum
  | .num n => n
  | .str s => jsToNumber s

/-- Lexicographic order on character lists (JavaScript string `<`). -/
def strLtChars : List Char → List Char → Bool
  | [], [] => false
  | [], _ :: _ => true
  | _ :: _, [] => false
  | a :: as, b :: bs => if a < b then true else if b < a then false else strLtChars as bs

/-- The JavaScript `<` operator on primitives: string comparison when both
operands are strings, otherwise both are converted to numbers (a
non-numeric string converts to NaN, making the comparison false). -/
def jsLT : JSVal → JSVal → Bool
  | .str a, .str b => strLtChars a.toList b.toList
  | a, b => JSNum.lt a.toNumber b.toNumber

/-- The JavaScript `>` operator on primitives. -/
def jsGT (a b : JSVal) : Bool := jsLT b a

/-! ## The data model -/

/-- A body row: an identity tag (standing for DOM node identity), the
ordered cell texts, and the `error` and `hidden` marker classes. -/
structure Row where
  id : ℕ
  cells : List String
  error : Bool
  hidden : Bool
deriving DecidableEq, Repr

/-- A header cell: the `sorted-asc` and `sorted-desc` marker classes. -/
structure Header where
  sortedAsc : Bool
  sortedDesc : Bool
deriving DecidableEq, Repr

/-- A header carrying neither sort marker. -/
def Header.unsorted : Header := ⟨false, false⟩

/-- The table: its header cells and its body rows, in document order. -/
structure TableState where
  headers : List Header
  rows : List Row
deriving DecidableEq, Repr

/-! ## The comparator (src/sort.js lines 22-32) -/

/-- The derived comparison value of a (trimmed) cell text:
`isNaN(cell) ? cell.toLowerCase() : parseFloat(cell)`
(src/sort.js lines 26-27). -/
def derivedValue (cell : String) : JSVal :=
  if jsIsNaN cell then JSVal.str (jsToLower cell) else JSVal.num (jsParseFloat cell)

/-- The comparator body on the two trimmed cell texts
(src/sort.js lines 26-31):
`if (aValue > bValue) return direction; if (aValue < bValue) return -direction; return 0`. -/
def cmpCells (direction : Int) (cellA cellB : String) : Int :=
  let aValue := derivedValue cellA
  let bValue := derivedValue cellB
  if jsGT aValue bValue then direction
  else if jsLT aValue bValue then -direction
  else 0

/-- The full comparator on two rows (src/sort.js lines 22-32): reads
`cells[colIndex].textContent` of each row and trims it; `none` models the
TypeError raised when a row has no cell at `colIndex`. -/
def rowCmp (direction : Int) (colIndex : ℕ) (a b : Row) : Option Int :=
  match a.cells.get? colIndex, b.cells.get? colIndex with
  | some ta, some tb => some (cmpCells direction (jsTrim ta) (jsTrim tb))
  | _, _ => none

/-! ## The operations -/

/-- `sortTable(colIndex, header)` (src/sort.js lines 10-39), with the
activated header given by its index among the headers.  Reads
`isAscending` off the activated header, clears both sort markers from
every header, stably sorts the rows by the comparator (ECMAScript
requires `Array.prototype.sort` to be stable), re-inserts the rows in
the new order, and marks the activated header `sorted-desc` when it had
been ascending, else `sorted-asc`. -/
def sortTable (st : TableState) (colIndex headerIdx : ℕ) : TableState :=
  let isAscending := (st.headers.getD headerIdx Header.unsorted).sortedAsc
  let direction : Int := if isAscending then -1 else 1
  let cleared := st.headers.map (fun _ => Header.unsorted)
  let sortedRows :=
    st.rows.insertionSort (fun a b => (rowCmp direction colIndex a b).getD 0 ≤ 0)
  let newHeaders :=
    cleared.set headerIdx (if isAscending then Header.mk false true else Header.mk true false)
  { headers := newHeaders, rows := sortedRows }

/-- The filter checkbox change handler (src/sort.js lines 42-53):
when checked, `row.classList.toggle('hidden', !row.classList.contains('error'))`
sets the `hidden` marker to the negation of the `error` marker; when
unchecked, `row.classList.remove('hidden')` clears it. -/
def toggleErrorFilter (st : TableState) (checked : Bool) : TableState :=
  { st with
    rows := st.rows.map (fun r =>
      if checked then { r with hidden := !r.error } else { r with hidden := false }) }

/-! ## The spec's description of the comparator key (for refinement checks)

The following two definitions follow the words of the specification, not
the source: the spec says the key of a cell is the numeric value when the
trimmed text "parses as a finite number", and the lower-cased text
otherwise.  They are compared against `derivedValue` / `cmpCells` above. -/

/-- Derived comparison key as the spec's words describe it: the numeric
value when the trimmed text parses as a finite number, otherwise the
lower-cased text. -/
def specDerivedValue (cell : String) : JSVal :=
  match jsToNumber cell with
  | JSNum.fin m e => JSVal.num (JSNum.fin m e)
  | _ => JSVal.str (jsToLower cell)

/-- Comparator as the spec's words describe it: `direction` when A's key
exceeds B's, `-direction` when it is below, `0` otherwise, with the keys
given by `specDerivedValue`. -/
def specCmpCells (direction : Int) (cellA cellB : String) : Int :=
  let aValue := specDerivedValue cellA
  let bValue := specDerivedValue cellB
  if jsGT aValue bValue then direction
  else if jsLT aValue bValue then -direction
  else 0

/-- A cell text on which the spec's key description and the code agree by
construction: its string-to-number conversion is NaN (the lower-cased-text
branch), or it converts to a finite number on which `ToNumber` and
`parseFloat` coincide (every ordinary decimal numeral; this excludes only
the pathological inputs `""`, `"±Infinity"` and non-decimal integer
literals such as `"0x10"`). -/
def goodCell (cell : String) : Bool :=
  match jsToNumber cell, jsParseFloat cell with
  | JSNum.nan, _ => true
  | JSNum.fin a ea, JSNum.fin b eb => decide (a = b) && decide (ea = eb)
  | _, _ => false

/-! ## Helper lemmas -/

theorem getD_set_self {α : Type} :
    ∀ (l : List α) (i : ℕ) (v d : α), i < l.length → (l.set i v).getD i d = v
  | [], i, _, _, h => absurd h (by simp)
  | _ :: _, 0, _, _, _ => rfl
  | _ :: l, i + 1, v, d, h => by
    simpa using getD_set_self l i v d (by simpa using h)

theorem getD_set_ne {α : Type} :
    ∀ (l : List α) (i j : ℕ) (v d : α), j ≠ i → (l.set i v).getD j d = l.getD j d
  | [], _, _, _, _, _ => rfl
  | _ :: _, 0, 0, _, _, hne => absurd rfl hne
  | _ :: _, 0, _ + 1, _, _, _ => rfl
  | _ :: _, _ + 1, 0, _, _, _ => rfl
  | _ :: l, i + 1, j + 1, v, d, hne => by
    simpa using getD_set_ne l i j v d (fun hc => hne (by simp [hc]))

theorem getD_map_const {α β : Type} (c : β) :
    ∀ (l : List α) (j : ℕ), (l.map (fun _ => c)).getD j c = c
  | [], _ => rfl
  | _ :: _, 0 => rfl
  | _ :: l, j + 1 => getD_map_const c l j

/-- On a `goodCell` text the code's derived key agrees with the one the
spec describes. -/
theorem derivedValue_eq_spec_of_good (cell : String) (h : goodCell cell = true) :
    derivedValue cell = specDerivedValue cell := by
  unfold goodCell at h
  unfold derivedValue specDerivedValue jsIsNaN
  cases h1 : jsToNumber cell with
  | nan => simp [h1]
  | inf b => rw [h1] at h; cases h2 : jsParseFloat cell <;> rw [h2] at h <;> simp at h
  | fin q =>
    rw [h1] at h
    cases h2 : jsParseFloat cell <;> rw [h2] at h <;> simp at h
    simp [h1, h2, h]

/-- The rows produced by `toggleErrorFilter` keep their identity, cells
and error marker, in order. -/
theorem toggleErrorFilter_preserves (st : TableState) (checked : Bool) :
    (toggleErrorFilter st checked).rows.map (fun r => (r.id, r.cells, r.error)) =
      st.rows.map (fun r => (r.id, r.cells, r.error)) := by
  unfold toggleErrorFilter
  rw [List.map_map]
  apply List.map_congr_left
  intro r _
  cases checked <;> simp

/-- The rows produced by `sortTable` are a permutation of the input rows. -/
theorem sortTable_rows_perm (st : TableState) (ci hi : ℕ) :
    (sortTable st ci hi).rows.Perm st.rows :=
  List.perm_insertionSort _ _

/-- Evaluating the row comparator when both cell accesses succeed. -/
theorem rowCmp_eq_of_get (d : Int) (ci : ℕ) (a b : Row) (ta tb : String)
    (hA : a.cells.get? ci = some ta) (hB : b.cells.get? ci = some tb) :
    rowCmp d ci a b = some (cmpCells d (jsTrim ta) (jsTrim tb)) := by
  unfold rowCmp
  rw [hA, hB]

/-- On `goodCell` texts the code comparator agrees with the one the spec
describes. -/
theorem cmpCells_eq_spec_of_good (d : Int) (x y : String)
    (gx : goodCell x = true) (gy : goodCell y = true) :
    cmpCells d x y = specCmpCells d x y := by
  unfold cmpCells specCmpCells
  rw [derivedValue_eq_spec_of_good _ gx, derivedValue_eq_spec_of_good _ gy]

/-! ## The claims -/

/-- C1 (counterexample): the comparator does not always use the lower-cased
text when the trimmed cell text fails to parse as a finite number.  On the
row pair with cell texts `"Infinity"` and `"zebra"`, the key the claim
describes for `"Infinity"` is the lower-cased text `"infinity"` (the text
parses as the non-finite value `Infinity`), which is below `"zebra"`, so
the claim predicts `-direction = -1`; the code instead keys `"Infinity"`
as the number `Infinity` (its `isNaN` test is false), and the mixed
number/string comparison with `"zebra"` is false both ways, so the
comparator returns `0`. -/
theorem c1_counterexample :
    rowCmp 1 0 (Row.mk 0 ["Infinity"] false false) (Row.mk 1 ["zebra"] false false) =
      some 0 ∧
    specDerivedValue "Infinity" = JSVal.str "infinity" ∧
    specCmpCells 1 "Infinity" "zebra" = -1 ∧
    cmpCells 1 "Infinity" "zebra" ≠ specCmpCells 1 "Infinity" "zebra" := by
  decide

/-- C1 (amended): for every pair of rows compared whose trimmed cell texts
are each either non-numeric (string-to-number conversion yields NaN) or a
finite decimal numeral on which `ToNumber` and `parseFloat` agree, the
comparator derives each row's key exactly as the claim states — the numeric
value for a numeral, else the lower-cased text — and returns `direction`
when A's key exceeds B's, `-direction` when it is below, and `0`
otherwise. -/
theorem c1_comparator_on_good_cells (d : Int) (ci : ℕ) (a b : Row) (ta tb : String)
    (hA : a.cells.get? ci = some ta) (hB : b.cells.get? ci = some tb)
    (ga : goodCell (jsTrim ta) = true) (gb : goodCell (jsTrim tb) = true) :
    rowCmp d ci a b = some (specCmpCells d (jsTrim ta) (jsTrim tb)) := by
  rw [rowCmp_eq_of_get d ci a b ta tb hA hB, cmpCells_eq_spec_of_good d _ _ ga gb]

/-- C1 (witness): the amended statement applied to the rows with cell
texts `"10"` and `"apple"`. -/
theorem c1_comparator_on_good_cells_witness :
    rowCmp 1 0 (Row.mk 0 ["10"] false false) (Row.mk 1 ["apple"] false false) =
      some (specCmpCells 1 (jsTrim "10") (jsTrim "apple")) :=
  c1_comparator_on_good_cells 1 0 _ _ "10" "apple" rfl rfl (by decide) (by decide)

/-- C2: on every invocation with the activated header in range, the new
direction is descending (the comparator direction is `-1`) exactly when
the header carried the ascending marker, and ascending (`+1`) in every
other state; afterwards the activated header is marked descending exactly
when it had been ascending, else ascending — in particular it never
returns to the unsorted state. -/
theorem c2_direction_toggle (st : TableState) (ci hi : ℕ)
    (h : hi < st.headers.length) :
    ((sortTable st ci hi).headers.getD hi Header.unsorted =
      if (st.headers.getD hi Header.unsorted).sortedAsc then Header.mk false true
      else Header.mk true false) ∧
    (sortTable st ci hi).rows =
      st.rows.insertionSort (fun a b =>
        (rowCmp (if (st.headers.getD hi Header.unsorted).sortedAsc then -1 else 1)
          ci a b).getD 0 ≤ 0) ∧
    (sortTable st ci hi).headers.getD hi Header.unsorted ≠ Header.unsorted := by
  refine ⟨?_, rfl, ?_⟩
  · unfold sortTable
    exact getD_set_self _ hi _ _ (by simpa using h)
  · unfold sortTable
    rw [getD_set_self _ hi _ _ (by simpa using h)]
    cases (st.headers.getD hi Header.unsorted).sortedAsc <;> simp [Header.unsorted]

/-- C2 (witness): the toggle theorem applied to a one-header table whose
header is currently marked ascending. -/
theorem c2_direction_toggle_witness :
    (sortTable ⟨[Header.mk true false], []⟩ 0 0).headers.getD 0 Header.unsorted =
      if ((⟨[Header.mk true false], []⟩ : TableState).headers.getD 0
            Header.unsorted).sortedAsc then Header.mk false true
      else Header.mk true false :=
  (c2_direction_toggle ⟨[Header.mk true false], []⟩ 0 0 (by decide)).1

/-- C3: after every invocation with the activated header in range, the
activated header carries a sort marker and every other header carries
none: the markers are cleared from all headers before the new one is
applied. -/
theorem c3_single_marker (st : TableState) (ci hi : ℕ)
    (h : hi < st.headers.length) :
    ((sortTable st ci hi).headers.getD hi Header.unsorted ≠ Header.unsorted) ∧
    ∀ j, j ≠ hi →
      (sortTable st ci hi).headers.getD j Header.unsorted = Header.unsorted := by
  constructor
  · unfold sortTable
    rw [getD_set_self _ hi _ _ (by simpa using h)]
    cases (st.headers.getD hi Header.unsorted).sortedAsc <;> simp [Header.unsorted]
  · intro j hj
    unfold sortTable
    rw [getD_set_ne _ hi j _ _ hj]
    exact getD_map_const _ _ _

/-- C3 (witness): after sorting on the second of two headers, the first —
previously marked ascending — carries no marker. -/
theorem c3_single_marker_witness :
    (sortTable ⟨[Header.mk true false, Header.unsorted], []⟩ 0 1).headers.getD 0
      Header.unsorted = Header.unsorted :=
  (c3_single_marker ⟨[Header.mk true false, Header.unsorted], []⟩ 0 1 (by decide)).2
    0 (by decide)

/-- C4: after `toggleErrorFilter` with the checkbox checked, every body row
carries the hidden marker exactly when it does not carry the error
marker. -/
theorem c4_filter_on (st : TableState) :
    ∀ r ∈ (toggleErrorFilter st true).rows, r.hidden = !r.error := by
  intro r hr
  unfold toggleErrorFilter at hr
  simp only [List.mem_map] at hr
  obtain ⟨a, _, rfl⟩ := hr
  simp

/-- C4 (witness): the filter-on theorem applied to a one-row table whose
row carries the error marker. -/
theorem c4_filter_on_witness :
    (Row.mk 0 ["x"] true false).hidden = !(Row.mk 0 ["x"] true false).error :=
  c4_filter_on ⟨[], [Row.mk 0 ["x"] true true]⟩ (Row.mk 0 ["x"] true false)
    (by decide)

/-- C5: after `toggleErrorFilter` with the checkbox unchecked — from any
state, hence after any prior sequence of toggles, and regardless of each
row's error marker — no body row carries the hidden marker. -/
theorem c5_filter_off (st : TableState) :
    ∀ r ∈ (toggleErrorFilter st false).rows, r.hidden = false := by
  intro r hr
  unfold toggleErrorFilter at hr
  simp only [List.mem_map] at hr
  obtain ⟨a, _, rfl⟩ := hr
  simp

/-- C5 (witness): the filter-off theorem applied to a one-row table whose
row was hidden and carries no error marker. -/
theorem c5_filter_off_witness :
    (Row.mk 0 ["y"] false false).hidden = false :=
  c5_filter_off ⟨[], [Row.mk 0 ["y"] false true]⟩ (Row.mk 0 ["y"] false false)
    (by decide)

/-- C6: sorting the single column with cell values `["10", "9", "2"]`
ascending (a first click on the unsorted header) orders the rows by
numeric value `[2, 9, 10]`, not by lexical string order
`[10, 2, 9]`. -/
theorem c6_numeric_not_lexical :
    (sortTable
        ⟨[Header.unsorted],
          [Row.mk 0 ["10"] false false, Row.mk 1 ["9"] false false,
            Row.mk 2 ["2"] false false]⟩ 0 0).rows.map Row.cells =
      [["2"], ["9"], ["10"]] := by
  decide

/-- C7: `sortTable` does not change which rows carry the hidden marker
(the hidden rows of the result are a permutation of the hidden rows of
the input), and `toggleErrorFilter` does not change the relative order of
the body rows (their identities and cell contents, in order, are
unchanged). -/
theorem c7_filter_sort_independence (st : TableState) (ci hi : ℕ) (checked : Bool) :
    ((sortTable st ci hi).rows.filter (fun r => r.hidden)).Perm
      (st.rows.filter (fun r => r.hidden)) ∧
    (toggleErrorFilter st checked).rows.map (fun r => (r.id, r.cells)) =
      st.rows.map (fun r => (r.id, r.cells)) := by
  constructor
  · exact (sortTable_rows_perm st ci hi).filter _
  · have h := toggleErrorFilter_preserves st checked
    have h1 := congrArg (List.map (fun p : ℕ × List String × Bool => (p.1, p.2.1))) h
    rw [List.map_map, List.map_map] at h1
    exact h1

/-- C8: neither operation creates or destroys rows: `sortTable` produces a
permutation of the body rows (same rows, same identity and cell
contents), and `toggleErrorFilter` leaves every row in place with its
identity, cells and error marker intact. -/
theorem c8_rows_preserved (st : TableState) (ci hi : ℕ) (checked : Bool) :
    (sortTable st ci hi).rows.Perm st.rows ∧
    (toggleErrorFilter st checked).rows.map (fun r => (r.id, r.cells, r.error)) =
      st.rows.map (fun r => (r.id, r.cells, r.error)) :=
  ⟨sortTable_rows_perm st ci hi, toggleErrorFilter_preserves st checked⟩

/-- C9: under the structural precondition that every body row has one cell
per header column, and with the clicked column index in range (it comes
from enumerating the existing headers), the comparator's cell access is in
bounds for every pair of rows: `rowCmp` never returns `none`, so no error
is raised during the sort. -/
theorem c9_no_fault (st : TableState) (d : Int) (ci : ℕ)
    (hshape : ∀ r ∈ st.rows, r.cells.length = st.headers.length)
    (hci : ci < st.headers.length) :
    ∀ a ∈ st.rows, ∀ b ∈ st.rows, (rowCmp d ci a b).isSome = true := by
  intro a ha b hb
  have h1 : ci < a.cells.length := by rw [hshape a ha]; exact hci
  have h2 : ci < b.cells.length := by rw [hshape b hb]; exact hci
  unfold rowCmp
  rw [List.get?_eq_getElem?, List.get?_eq_getElem?,
    List.getElem?_eq_getElem h1, List.getElem?_eq_getElem h2]
  rfl

/-- C9 (witness): the no-fault theorem applied to a one-column table with
two well-shaped rows. -/
theorem c9_no_fault_witness :
    (rowCmp 1 0 (Row.mk 0 ["5"] false false) (Row.mk 1 ["apple"] false false)).isSome =
      true :=
  c9_no_fault
    ⟨[Header.unsorted],
      [Row.mk 0 ["5"] false false, Row.mk 1 ["apple"] false false]⟩ 1 0
    (by decide) (by decide) (Row.mk 0 ["5"] false false) (by decide)
    (Row.mk 1 ["apple"] false false) (by decide)

/-- C10: for every pair of rows where one derived key is a number (of any
kind) and the other is a non-numeric lower-cased string (its
string-to-number conversion is NaN), the comparator returns `0` in both
orders: under the host semantics a number is neither greater than nor less
than such a string, so the relative placement of the two rows is left to
the sort algorithm's stability. -/
theorem c10_mixed_type_zero (d : Int) (ci : ℕ) (a b : Row) (ta tb : String)
    (k : JSNum) (s : String)
    (hA : a.cells.get? ci = some ta) (hB : b.cells.get? ci = some tb)
    (hk : derivedValue (jsTrim ta) = JSVal.num k)
    (hstr : derivedValue (jsTrim tb) = JSVal.str s)
    (hs : jsToNumber s = JSNum.nan) :
    rowCmp d ci a b = some 0 ∧ rowCmp d ci b a = some 0 := by
  have hlt : jsLT (JSVal.num k) (JSVal.str s) = false := by
    unfold jsLT
    cases k <;> simp [JSVal.toNumber, hs, JSNum.lt]
  have hlt2 : jsLT (JSVal.str s) (JSVal.num k) = false := by
    unfold jsLT
    simp [JSVal.toNumber, hs, JSNum.lt]
  have hgt : jsGT (JSVal.num k) (JSVal.str s) = false := hlt2
  have hgt2 : jsGT (JSVal.str s) (JSVal.num k) = false := hlt
  rw [rowCmp_eq_of_get d ci a b ta tb hA hB, rowCmp_eq_of_get d ci b a tb ta hB hA]
  unfold cmpCells
  rw [hk, hstr]
  simp only [hgt, hlt, hgt2, hlt2]
  simp

/-- C10 (witness): the mixed-type theorem applied to the rows with cell
texts `"5"` (numeric key `5`) and `"apple"` (string key `"apple"`). -/
theorem c10_mixed_type_zero_witness :
    rowCmp 1 0 (Row.mk 0 ["5"] false false) (Row.mk 1 ["apple"] false false) =
        some 0 ∧
      rowCmp 1 0 (Row.mk 1 ["apple"] false false) (Row.mk 0 ["5"] false false) =
        some 0 :=
  c10_mixed_type_zero 1 0 _ _ "5" "apple" (JSNum.fin 5 0) "apple" rfl rfl
    (by decide) (by decide) (by decide)

end EnbyTable
